import Mathlib

/-!
Shallow embedding of the CHIP-8 interpreter core (`chip8_core/src/lib.rs`).

Machine integers are modelled as `Nat` with explicit reductions modulo
`2^8` / `2^16` exactly where the source performs wrapping arithmetic
(`wrapping_add`, `overflowing_add`, `overflowing_sub`, `u8` truncation).
The fixed-size arrays (`ram`, `screen`, `v_reg`, `stack`, `keys`) are
modelled as total functions from `Nat`; the source's panicking bounds
checks are modelled explicitly (as `Except` errors) at the points the
theorems below exercise: instruction fetch and stack push/pop.  Array
accesses performed by instruction handlers at indices beyond the array
bounds panic in the source and are not exercised by any theorem below.

The single`rand::random()` call (opcode `0xCXNN`) is modelled by passing
the externally drawn random byte as an explicit argument.

The BCD instruction (`assign_vx_bcd_to_ireg`) performs its arithmetic on
`f32`.  Every `f32` value arising there (a `u8` promoted exactly, the
correctly rounded quotients by `100.0` / `10.0`, and the exact `%` /
`floor` results) is a normal nonnegative `f32` number that is an integer
multiple of `2 ^ (-30)`, so the computation is embedded exactly over
`Nat` in a fixed-point representation scaled by `2 ^ 30`, with an
explicit round-to-nearest-even operation at 24 bits of precision
(`f32divScaled`) applied exactly where the source performs an inexact
`f32` operation (the divisions); IEEE-754 `%` (fmod) and `floor` are
exact operations and are embedded as such (`fmodScaled`, right shift).
-/

namespace Chip8

def SCREEN_WIDTH : Nat := 64
def SCREEN_HEIGHT : Nat := 32
def START_ADDR : Nat := 0x200
def RAM_SIZE : Nat := 4096
def REGISTER_COUNT : Nat := 16
def STACK_SIZE : Nat := 16
def NUM_KEYS : Nat := 16
def FONTSET_SIZE : Nat := 80

def FONTSET : List Nat := [
  0xF0, 0x90, 0x90, 0x90, 0xF0,
  0x20, 0x60, 0x20, 0x20, 0x70,
  0xF0, 0x10, 0xF0, 0x80, 0xF0,
  0xF0, 0x10, 0xF0, 0x10, 0xF0,
  0x90, 0x90, 0xF0, 0x10, 0x10,
  0xF0, 0x80, 0xF0, 0x10, 0xF0,
  0xF0, 0x80, 0xF0, 0x90, 0xF0,
  0xF0, 0x10, 0x20, 0x40, 0x40,
  0xF0, 0x90, 0xF0, 0x90, 0xF0,
  0xF0, 0x90, 0xF0, 0x10, 0xF0,
  0xF0, 0x90, 0xF0, 0x90, 0x90,
  0xE0, 0x90, 0xE0, 0x90, 0xE0,
  0xF0, 0x80, 0x80, 0x80, 0xF0,
  0xE0, 0x90, 0x90, 0x90, 0xE0,
  0xF0, 0x80, 0xF0, 0x80, 0xF0,
  0xF0, 0x80, 0xF0, 0x80, 0x80]

/-- Machine state of the interpreter (struct `Emulator` in the source). -/
structure Emulator where
  pc : Nat
  ram : Nat → Nat
  screen : Nat → Bool
  v_reg : Nat → Nat
  i_reg : Nat
  stack_ptr : Nat
  stack : Nat → Nat
  keys : Nat → Bool
  delay_timer : Nat
  sound_timer : Nat

/-- Pointwise update of a function-modelled array. -/
def updF {α : Type} (f : Nat → α) (i : Nat) (v : α) : Nat → α :=
  fun j => if j = i then v else f j

/-- Fatal conditions: the source panics (`unimplemented!` for an
undecodable opcode, index-out-of-bounds / arithmetic overflow panics
for the others). -/
inductive Fault where
  | unimplementedOpcode (op : Nat)
  | outOfBounds
deriving DecidableEq

/-- Emulator state produced by `Emulator::default()`. -/
def Emulator.base : Emulator where
  pc := START_ADDR
  ram := fun _ => 0
  screen := fun _ => false
  v_reg := fun _ => 0
  i_reg := 0
  stack_ptr := 0
  stack := fun _ => 0
  keys := fun _ => false
  delay_timer := 0
  sound_timer := 0

/-- Constructor `Emulator::new()`: default state with the fontset copied
into `ram[..FONTSET_SIZE]`. -/
def Emulator.new : Emulator :=
  { Emulator.base with
    ram := fun a => if a < FONTSET_SIZE then FONTSET.getD a 0 else 0 }

/-- Timer tick (`tick_timers`).  The source decrements each timer when
nonzero.  The branch taken when `sound_timer == 1` contains only the
comment `// BEEP`: no signal, callback or return value is produced, so
the embedded function returns only the successor state. -/
def tick_timers (s : Emulator) : Emulator :=
  let s1 := if s.delay_timer > 0 then { s with delay_timer := s.delay_timer - 1 } else s
  if s1.sound_timer > 0 then
    { s1 with sound_timer := s1.sound_timer - 1 }
  else s1

/-- Instruction fetch: big-endian 16-bit word at `pc`, advancing `pc` by 2.
Reading `ram[pc]` / `ram[pc+1]` with `pc + 1 ≥ RAM_SIZE` panics in the
source (index out of bounds); this is modelled as a `Fault`. -/
def fetch (s : Emulator) : Except Fault (Nat × Emulator) :=
  if s.pc + 1 < RAM_SIZE then
    let higher_byte := s.ram s.pc
    let lower_byte := s.ram (s.pc + 1)
    let op := (higher_byte <<< 8) ||| lower_byte
    .ok (op, { s with pc := s.pc + 2 })
  else .error .outOfBounds

/-- Stack push; `stack[stack_ptr]` with `stack_ptr = 16` panics in the
source. -/
def push (s : Emulator) (val : Nat) : Except Fault Emulator :=
  if s.stack_ptr < STACK_SIZE then
    .ok { s with stack := updF s.stack s.stack_ptr val, stack_ptr := s.stack_ptr + 1 }
  else .error .outOfBounds

/-- Stack pop; `stack_ptr -= 1` underflows (panics) in the source when the
stack is empty. -/
def pop (s : Emulator) : Except Fault (Nat × Emulator) :=
  if s.stack_ptr = 0 then .error .outOfBounds
  else .ok (s.stack (s.stack_ptr - 1), { s with stack_ptr := s.stack_ptr - 1 })

def clear_screen (s : Emulator) : Emulator :=
  { s with screen := fun _ => false }

def end_subroutine (s : Emulator) : Except Fault Emulator :=
  match pop s with
  | .ok (ret_addr, s1) => .ok { s1 with pc := ret_addr }
  | .error e => .error e

def jump (s : Emulator) (nnn : Nat) : Emulator :=
  { s with pc := nnn }

def call_subroutine (s : Emulator) (nnn : Nat) : Except Fault Emulator :=
  match push s s.pc with
  | .ok s1 => .ok { s1 with pc := nnn }
  | .error e => .error e

def skip_if_vx_equals_nn (s : Emulator) (second_digit nn : Nat) : Emulator :=
  if s.v_reg second_digit = nn % 256 then { s with pc := s.pc + 2 } else s

def skip_if_vx_not_equals_nn (s : Emulator) (second_digit nn : Nat) : Emulator :=
  if s.v_reg second_digit ≠ nn % 256 then { s with pc := s.pc + 2 } else s

def skip_if_vx_equals_vy (s : Emulator) (second_digit third_digit : Nat) : Emulator :=
  if s.v_reg second_digit = s.v_reg third_digit then { s with pc := s.pc + 2 } else s

def assign_nn_to_vx (s : Emulator) (second_digit nn : Nat) : Emulator :=
  { s with v_reg := updF s.v_reg second_digit (nn % 256) }

def add_nn_to_vx (s : Emulator) (second_digit nn : Nat) : Emulator :=
  { s with v_reg := updF s.v_reg second_digit ((s.v_reg second_digit + nn % 256) % 256) }

/-- Opcode `8XY0`; the source function carries this (reversed) name but
assigns `v_reg[x] = v_reg[y]`. -/
def assign_vx_to_vy (s : Emulator) (second_digit third_digit : Nat) : Emulator :=
  { s with v_reg := updF s.v_reg second_digit (s.v_reg third_digit) }

def vx_or_vy (s : Emulator) (second_digit third_digit : Nat) : Emulator :=
  { s with v_reg := updF s.v_reg second_digit (s.v_reg second_digit ||| s.v_reg third_digit) }

def vx_and_vy (s : Emulator) (second_digit third_digit : Nat) : Emulator :=
  { s with v_reg := updF s.v_reg second_digit (s.v_reg second_digit &&& s.v_reg third_digit) }

def vx_xor_vy (s : Emulator) (second_digit third_digit : Nat) : Emulator :=
  { s with v_reg := updF s.v_reg second_digit (s.v_reg second_digit ^^^ s.v_reg third_digit) }

/-- Opcode `8XY4`: `overflowing_add` on `u8`. -/
def add_vy_to_vx (s : Emulator) (second_digit third_digit : Nat) : Emulator :=
  let vy := s.v_reg third_digit
  let vx := (s.v_reg second_digit + vy) % 256
  let carry := 256 ≤ s.v_reg second_digit + vy
  let vf := if carry then 1 else 0
  { s with v_reg := updF (updF s.v_reg second_digit vx) 0xF vf }

/-- Opcode `8XY5`: `overflowing_sub` on `u8`; flag `0xF` is 1 when no
borrow occurred. -/
def sub_vy_from_vx (s : Emulator) (second_digit third_digit : Nat) : Emulator :=
  let vy := s.v_reg third_digit
  let vx := (s.v_reg second_digit + 256 - vy) % 256
  let carry := s.v_reg second_digit < vy
  let vf := if carry then 0 else 1
  { s with v_reg := updF (updF s.v_reg second_digit vx) 0xF vf }

def lshift_vx (s : Emulator) (second_digit : Nat) : Emulator :=
  let msb := (s.v_reg second_digit >>> 7) &&& 1
  { s with v_reg := updF (updF s.v_reg second_digit ((s.v_reg second_digit <<< 1) % 256)) 0xF msb }

def rshift_vx (s : Emulator) (second_digit : Nat) : Emulator :=
  let lsb := s.v_reg second_digit &&& 1
  { s with v_reg := updF (updF s.v_reg second_digit (s.v_reg second_digit >>> 1)) 0xF lsb }

/-- Opcode `8XY7`: `v_reg[y].overflowing_sub(v_reg[x])`, the result being
stored back into `v_reg[y]` (the source comment on the dispatch arm reads
`VX = VY - VX`, but the code writes `self.v_reg[y] = vy`). -/
def sub_vx_from_vy (s : Emulator) (second_digit third_digit : Nat) : Emulator :=
  let vx := s.v_reg second_digit
  let vy := (s.v_reg third_digit + 256 - vx) % 256
  let carry := s.v_reg third_digit < vx
  let vf := if carry then 0 else 1
  { s with v_reg := updF (updF s.v_reg third_digit vy) 0xF vf }

def skip_if_vx_not_equals_vy (s : Emulator) (second_digit third_digit : Nat) : Emulator :=
  if s.v_reg second_digit ≠ s.v_reg third_digit then { s with pc := s.pc + 2 } else s

def assign_nnn_to_ireg (s : Emulator) (nnn : Nat) : Emulator :=
  { s with i_reg := nnn }

def jump_to_offset (s : Emulator) (nnn : Nat) : Emulator :=
  { s with pc := s.v_reg 0 + nnn }

/-- Opcode `CXNN`; the random byte drawn by `rand::random()` is supplied
as the explicit argument `rng`. -/
def assign_rand_and_nn_to_vx (s : Emulator) (rng : Nat) (second_digit nn : Nat) : Emulator :=
  { s with v_reg := updF s.v_reg second_digit ((rng % 256) &&& (nn % 256)) }

/-- Sprite drawing (`DXYN`).  Mirrors the source loop structure: for each
row the sprite byte is read at `i_reg + y_line`, and each set bit toggles
the pixel at `x = (x_coord + x_line) % SCREEN_WIDTH`,
`y = (y_coord + y_line) &&& SCREEN_HEIGHT` — the source's bitwise AND
with `SCREEN_HEIGHT` (32), written here exactly as the source computes
it. -/
def draw_sprite (s : Emulator) (vx vy num_rows : Nat) : Emulator :=
  let x_coord := s.v_reg vx
  let y_coord := s.v_reg vy
  let step := fun (acc : (Nat → Bool) × Bool) (yx : Nat × Nat) =>
    let y_line := yx.1
    let x_line := yx.2
    let pixels := s.ram (s.i_reg + y_line)
    if pixels &&& (0b10000000 >>> x_line) ≠ 0 then
      let x := (x_coord + x_line) % SCREEN_WIDTH
      let y := (y_coord + y_line) &&& SCREEN_HEIGHT
      let idx := x + SCREEN_WIDTH * y
      (updF acc.1 idx (!acc.1 idx), acc.2 || acc.1 idx)
    else acc
  let pairs := (List.range num_rows).flatMap (fun y_line => (List.range 8).map (fun x_line => (y_line, x_line)))
  let res := pairs.foldl step (s.screen, false)
  { s with screen := res.1, v_reg := updF s.v_reg 0xF (if res.2 then 1 else 0) }

def skip_if_key_pressed (s : Emulator) (x : Nat) : Emulator :=
  let vx := s.v_reg x
  if s.keys vx then { s with pc := s.pc + 2 } else s

def skip_if_key_not_pressed (s : Emulator) (x : Nat) : Emulator :=
  let vx := s.v_reg x
  if !s.keys vx then { s with pc := s.pc + 2 } else s

def assign_dt_to_vx (s : Emulator) (x : Nat) : Emulator :=
  { s with v_reg := updF s.v_reg x s.delay_timer }

/-- Opcode `FX0A`: scan keys `0..16` in order; the first pressed key's
index is stored in `v_reg[x]`; if none is pressed, `pc` is moved back by
2 (undoing the fetch advance, so the instruction re-executes). -/
def wait_for_key_press (s : Emulator) (x : Nat) : Emulator :=
  match (List.range NUM_KEYS).find? (fun i => s.keys i) with
  | some i => { s with v_reg := updF s.v_reg x i }
  | none => { s with pc := s.pc - 2 }

def assign_vx_to_dt (s : Emulator) (x : Nat) : Emulator :=
  { s with delay_timer := s.v_reg x }

def assign_vx_to_st (s : Emulator) (x : Nat) : Emulator :=
  { s with sound_timer := s.v_reg x }

/-- Opcode `FX1E`: `wrapping_add` on `u16`. -/
def add_vx_to_ireg (s : Emulator) (x : Nat) : Emulator :=
  { s with i_reg := (s.i_reg + s.v_reg x) % 65536 }

/-- Opcode `FX29`: the source computes `c * 5` with `c` the full register
value promoted to `u16` (no masking to the low nibble). -/
def assign_font_addr_to_ireg (s : Emulator) (x : Nat) : Emulator :=
  { s with i_reg := s.v_reg x * 5 }

/-- Fuel-driven auxiliary for `log2floor` (structural recursion, so that
proof terms evaluate by kernel reduction). -/
def log2Aux : Nat → Nat → Nat
  | 0, _ => 0
  | fuel + 1, n => if 2 ≤ n then log2Aux fuel (n / 2) + 1 else 0

/-- Floor of the base-2 logarithm (`⌊log2 n⌋` for `n ≥ 1`). -/
def log2floor (n : Nat) : Nat := log2Aux n n

/-- Correctly rounded (round-to-nearest, ties-to-even, 24 significant
binary digits) `f32` quotient of the exact nonnegative integers `p / q`,
represented exactly as an integer multiple of `2 ^ (-30)` (the returned
value is that multiple).  This is exact for the magnitudes arising in the
BCD instruction, where `p ≤ 255` and `q ∈ {10, 100}`: every such
quotient lies in `[2 ^ (-7), 2 ^ 5)`, so its `f32` rounding is a normal
number whose unit in the last place is between `2 ^ (-30)` and
`2 ^ (-19)`.  The binade exponent `e = ⌊log2 (p / q)⌋` is computed from
integer division; the significand is rounded from the exact quotient
`p * 2 ^ (23 - e) / q` with the tie compared against a half via
`2 * remainder` versus `q`. -/
def f32divScaled (p q : Nat) : Nat :=
  if p = 0 then 0 else
  let e : Int :=
    if q ≤ p then (log2floor (p / q) : Int)
    else
      let k := log2floor (q / p)
      if 2 ^ k * p = q then -(k : Int) else -(k : Int) - 1
  let sh := (23 - e).toNat
  let num := p <<< sh
  let n := num / q
  let r := num % q
  let n' := if 2 * r < q then n else if q < 2 * r then n + 1 else if n % 2 = 0 then n else n + 1
  n' <<< (30 - sh)

/-- IEEE-754 `%` (fmod) applied to a nonnegative value represented as an
integer multiple `a` of `2 ^ (-30)` and an integer modulus `b`: fmod is
exact, `x % b = x - b * ⌊x / b⌋`, and the result is returned in the same
`2 ^ (-30)`-scaled representation. -/
def fmodScaled (a b : Nat) : Nat := a - (b <<< 30) * (a / (b <<< 30))

/-- Hundreds digit as the source computes it: `(vx / 100.0).floor() as u8`
with `vx : f32`; the floor of a `2 ^ (-30)`-scaled value is a right
shift by 30. -/
def bcdHundreds (v : Nat) : Nat := f32divScaled v 100 >>> 30

/-- Tens digit as the source computes it: `((vx / 10.0) % 10.0).floor() as u8`. -/
def bcdTens (v : Nat) : Nat := fmodScaled (f32divScaled v 10) 10 >>> 30

/-- Ones digit as the source computes it: `(vx % 10.0) as u8` (`vx` is the
exactly represented register value; the cast truncates toward zero). -/
def bcdOnes (v : Nat) : Nat := fmodScaled (v <<< 30) 10 >>> 30

/-- Opcode `FX33`: BCD decomposition of `v_reg[x]` (computed on `f32` in
the source) stored at `ram[i_reg]`, `ram[i_reg+1]`, `ram[i_reg+2]`. -/
def assign_vx_bcd_to_ireg (s : Emulator) (x : Nat) : Emulator :=
  let vx := s.v_reg x
  let hundreds := bcdHundreds vx
  let tens := bcdTens vx
  let ones := bcdOnes vx
  { s with ram := updF (updF (updF s.ram s.i_reg hundreds) (s.i_reg + 1) tens) (s.i_reg + 2) ones }

/-- Opcode `FX55`: copy `v_reg[0..=x]` to `ram[i_reg..]`. -/
def store_regs_into_ram (s : Emulator) (x : Nat) : Emulator :=
  let i := s.i_reg
  { s with ram := (List.range (x + 1)).foldl (fun r idx => updF r (i + idx) (s.v_reg idx)) s.ram }

/-- Opcode dispatched at `(0xF, _, 6, 6)` in the source (its comment reads
`LD VX, [I]`): copy `ram[i_reg..]` into `v_reg[0..=x]`. -/
def load_ram_into_regs (s : Emulator) (x : Nat) : Emulator :=
  let i := s.i_reg
  { s with v_reg := (List.range (x + 1)).foldl (fun v idx => updF v idx (s.ram (i + idx))) s.v_reg }

/-- Instruction decode and dispatch (`execute`).  The match arms appear in
source order; the final catch-all is the source's
`unimplemented!("Unimplemented opcode: ...")` panic. -/
def execute (rng : Nat) (op : Nat) (s : Emulator) : Except Fault Emulator :=
  let first_digit := (op &&& 0xF000) >>> 12
  let second_digit := (op &&& 0x0F00) >>> 8
  let third_digit := (op &&& 0x00F0) >>> 4
  let fourth_digit := op &&& 0x000F
  let nnn := op &&& 0xFFF
  let nn := op &&& 0xFF
  match first_digit, second_digit, third_digit, fourth_digit with
  | 0, 0, 0, 0 => .ok s
  | 0, 0, 0xE, 0 => .ok (clear_screen s)
  | 0, 0, 0xE, 0xE => end_subroutine s
  | 1, _, _, _ => .ok (jump s nnn)
  | 2, _, _, _ => call_subroutine s nnn
  | 3, _, _, _ => .ok (skip_if_vx_equals_nn s second_digit nn)
  | 4, _, _, _ => .ok (skip_if_vx_not_equals_nn s second_digit nn)
  | 5, _, _, 0 => .ok (skip_if_vx_equals_vy s second_digit third_digit)
  | 6, _, _, _ => .ok (assign_nn_to_vx s second_digit nn)
  | 7, _, _, _ => .ok (add_nn_to_vx s second_digit nn)
  | 8, _, _, 0 => .ok (assign_vx_to_vy s second_digit third_digit)
  | 8, _, _, 1 => .ok (vx_or_vy s second_digit third_digit)
  | 8, _, _, 2 => .ok (vx_and_vy s second_digit third_digit)
  | 8, _, _, 3 => .ok (vx_xor_vy s second_digit third_digit)
  | 8, _, _, 4 => .ok (add_vy_to_vx s second_digit third_digit)
  | 8, _, _, 5 => .ok (sub_vy_from_vx s second_digit third_digit)
  | 8, _, _, 6 => .ok (rshift_vx s second_digit)
  | 8, _, _, 7 => .ok (sub_vx_from_vy s second_digit third_digit)
  | 8, _, _, 0xE => .ok (lshift_vx s second_digit)
  | 9, _, _, 0 => .ok (skip_if_vx_not_equals_vy s second_digit third_digit)
  | 0xA, _, _, _ => .ok (assign_nnn_to_ireg s nnn)
  | 0xB, _, _, _ => .ok (jump_to_offset s nnn)
  | 0xC, _, _, _ => .ok (assign_rand_and_nn_to_vx s rng second_digit nn)
  | 0xD, _, _, _ => .ok (draw_sprite s second_digit third_digit fourth_digit)
  | 0xE, _, 9, 0xE => .ok (skip_if_key_pressed s second_digit)
  | 0xE, _, 0xA, 1 => .ok (skip_if_key_not_pressed s second_digit)
  | 0xF, _, 0, 7 => .ok (assign_dt_to_vx s second_digit)
  | 0xF, _, 0, 0xA => .ok (wait_for_key_press s second_digit)
  | 0xF, _, 1, 5 => .ok (assign_vx_to_dt s second_digit)
  | 0xF, _, 1, 8 => .ok (assign_vx_to_st s second_digit)
  | 0xF, _, 1, 0xE => .ok (add_vx_to_ireg s second_digit)
  | 0xF, _, 2, 9 => .ok (assign_font_addr_to_ireg s second_digit)
  | 0xF, _, 3, 3 => .ok (assign_vx_bcd_to_ireg s second_digit)
  | 0xF, _, 5, 5 => .ok (store_regs_into_ram s second_digit)
  | 0xF, _, 6, 6 => .ok (load_ram_into_regs s second_digit)
  | _, _, _, _ => .error (.unimplementedOpcode op)

/-- One fetch-decode-execute cycle (`tick`). -/
def tick (rng : Nat) (s : Emulator) : Except Fault Emulator :=
  match fetch s with
  | .ok (op, s1) => execute rng op s1
  | .error e => .error e

/-- Iterated ticks (the external driver's repeated `tick()` calls), with
the same supplied random byte each cycle. -/
def ticks (rng : Nat) : Nat → Emulator → Except Fault Emulator
  | 0, s => .ok s
  | k + 1, s =>
    match tick rng s with
    | .ok s1 => ticks rng k s1
    | .error e => .error e

/-! Concrete machine states used to evaluate the model at specific
inputs. -/

/-- Blank machine whose `v_reg[1] = 31` and whose sprite data at
`ram[i_reg] = ram[0]` is the single-pixel row `0b10000000`. -/
def drawTestState : Emulator :=
  { Emulator.base with
    ram := fun a => if a = 0 then 0x80 else 0,
    v_reg := fun i => if i = 1 then 31 else 0 }

/-- Machine with `v_reg[0] = 5` and `v_reg[1] = 3`. -/
def subTestState : Emulator :=
  { Emulator.base with v_reg := fun i => if i = 0 then 5 else if i = 1 then 3 else 0 }

/-- Machine with `v_reg[0] = 0x10` (low nibble 0, high nibble 1). -/
def fontTestState : Emulator :=
  { Emulator.base with v_reg := fun i => if i = 0 then 16 else 0 }

/-- Machine with `ram[15] = 7`, everything else zero, `i_reg = 0`. -/
def bulkTestState : Emulator :=
  { Emulator.base with ram := fun a => if a = 15 then 7 else 0 }

/-- Machine whose next instruction (at `pc = 0x200`) is `0xF20A`
(wait-for-key into `v_reg[2]`) and whose key `5` is the only key
pressed. -/
def keyTestState : Emulator :=
  { Emulator.base with
    ram := fun a => if a = 0x200 then 0xF2 else if a = 0x201 then 0x0A else 0,
    keys := fun i => i == 5 }

/-- Machine with `v_reg[0] = 255` (BCD input). -/
def bcdTestState : Emulator :=
  { Emulator.base with v_reg := fun i => if i = 0 then 255 else 0 }

/-- Machine with `v_reg[0] = 200` and `v_reg[1] = 100`. -/
def addTestState : Emulator :=
  { Emulator.base with v_reg := fun i => if i = 0 then 200 else if i = 1 then 100 else 0 }

/-! Theorems. -/

/-- C1: a draw with origin y = 31 and a single sprite row must, per the
claim, light the pixel at row `(31 + 0) % 32 = 31`; the code instead
computes the row as `(31 + 0) &&& 32 = 0` and lights the pixel at the
top of the screen.  Evaluated at `drawTestState` (origin `(0, 31)`,
one-row sprite `0x80`, blank screen): the pixel at index `0` (row 0) is
set and the pixel at index `31 * 64` (row 31) is not. -/
theorem draw_sprite_vertical_wrap_bug :
    (draw_sprite drawTestState 0 1 1).screen (0 + SCREEN_WIDTH * 0) = true ∧
    (draw_sprite drawTestState 0 1 1).screen (0 + SCREEN_WIDTH * 31) = false ∧
    (31 + 0) % SCREEN_HEIGHT = 31 ∧ (31 + 0) &&& SCREEN_HEIGHT = 0 := by
  decide

/-- C2: the architecture's bulk register-load opcode `0xFX65` does not
dispatch to `load_ram_into_regs` — it falls into the catch-all and
raises the fatal unimplemented-opcode condition, because the source's
match arm reads `(0xF, _, 6, 6)`; the word `0xFX66` (outside the
architecture's opcode space) is the one that dispatches to the
handler. -/
theorem fx65_decode_fatal :
    execute 0 0xF065 Emulator.new = .error (.unimplementedOpcode 0xF065) ∧
    execute 0 0xF066 Emulator.new = .ok (load_ram_into_regs Emulator.new 0) :=
  ⟨rfl, rfl⟩

/-- C3: `tick_timers` with `sound_timer = 1` sets it to 0, and with
`sound_timer = 0` leaves it at 0 — but the function's entire result is
the successor state: the source's 1-to-0 branch contains only the
comment `// BEEP`, so no observable tone-signal event reaches the
caller. -/
theorem tick_timers_sound_transition :
    tick_timers { Emulator.base with sound_timer := 1 } = { Emulator.base with sound_timer := 0 } ∧
    tick_timers { Emulator.base with sound_timer := 0 } = { Emulator.base with sound_timer := 0 } :=
  ⟨rfl, rfl⟩

/-- C4 counterexample: with `v_reg[0] = 5` (VX, a) and `v_reg[1] = 3`
(VY, b), the claim predicts the reversed subtract stores
`(a - b) mod 256 = 2` in VY with flag 1; the code stores
`(b - a) mod 256 = 254` with flag 0. -/
theorem sub_reversed_counterexample :
    (sub_vx_from_vy subTestState 0 1).v_reg 1 = 254 ∧
    (sub_vx_from_vy subTestState 0 1).v_reg 0xF = 0 ∧
    ¬((sub_vx_from_vy subTestState 0 1).v_reg 1 = (5 + 256 - 3) % 256 ∧
      (sub_vx_from_vy subTestState 0 1).v_reg 0xF = 1) := by
  decide

/-- C4 amended: `VX -= VY` stores `(a - b) mod 256` in VX with flag
`0xF = 1` iff `a ≥ b`, and the reversed variant computes `VY = VY - VX`,
storing `(b - a) mod 256` in VY with flag `0xF = 1` iff `b ≥ a`; in both
the flag is 1 exactly when no borrow occurred (minuend ≥ subtrahend),
but the reversed variant's minuend is VY, not VX. -/
theorem sub_semantics (s : Emulator) (x y a b : Nat)
    (_hx : x < 16) (_hy : y < 16) (hxf : x ≠ 0xF) (hyf : y ≠ 0xF)
    (ha : s.v_reg x = a) (hb : s.v_reg y = b) (ha' : a < 256) (hb' : b < 256) :
    ((sub_vy_from_vx s x y).v_reg x = (a + 256 - b) % 256 ∧
     (sub_vy_from_vx s x y).v_reg 0xF = if b ≤ a then 1 else 0) ∧
    ((sub_vx_from_vy s x y).v_reg y = (b + 256 - a) % 256 ∧
     (sub_vx_from_vy s x y).v_reg 0xF = if a ≤ b then 1 else 0) := by
  subst ha hb
  refine ⟨⟨?_, ?_⟩, ⟨?_, ?_⟩⟩ <;>
    simp only [sub_vy_from_vx, sub_vx_from_vy, updF] <;>
    split_ifs <;> first | rfl | omega

/-- C4 witness: instantiation of `sub_semantics` at `subTestState`
(`a = 5`, `b = 3`, `x = 0`, `y = 1`). -/
theorem sub_semantics_witness :
    (sub_vy_from_vx subTestState 0 1).v_reg 0 = (5 + 256 - 3) % 256 ∧
    (sub_vy_from_vx subTestState 0 1).v_reg 0xF = 1 ∧
    (sub_vx_from_vy subTestState 0 1).v_reg 1 = (3 + 256 - 5) % 256 ∧
    (sub_vx_from_vy subTestState 0 1).v_reg 0xF = 0 := by
  have h := sub_semantics subTestState 0 1 5 3 (by decide) (by decide) (by decide)
    (by decide) rfl rfl (by decide) (by decide)
  exact ⟨h.1.1, h.1.2, h.2.1, h.2.2⟩

/-- C5 counterexample: with `v_reg[0] = 0x10` the claim predicts
`index_register = 5 * (0x10 mod 16) = 0`; the code computes
`5 * 0x10 = 80` — the high nibble is not masked off. -/
theorem font_addr_counterexample :
    (assign_font_addr_to_ireg fontTestState 0).i_reg = 80 ∧
    (assign_font_addr_to_ireg fontTestState 0).i_reg ≠ 5 * (fontTestState.v_reg 0 % 16) := by
  decide

/-- C5 amended: the font-address lookup sets `index_register` to
`5 * v` where `v` is the full 8-bit register value; this agrees with
`5 * (v mod 16)` exactly when `v < 16`. -/
theorem font_addr_semantics (s : Emulator) (x : Nat) :
    (assign_font_addr_to_ireg s x).i_reg = 5 * s.v_reg x ∧
    (s.v_reg x < 16 → (assign_font_addr_to_ireg s x).i_reg = 5 * (s.v_reg x % 16)) := by
  constructor
  · simp [assign_font_addr_to_ireg, Nat.mul_comm]
  · intro h
    simp [assign_font_addr_to_ireg, Nat.mod_eq_of_lt h, Nat.mul_comm]

/-- C5 witness: instantiation of `font_addr_semantics` at a register
value below 16 (`subTestState.v_reg 0 = 5`). -/
theorem font_addr_semantics_witness :
    (assign_font_addr_to_ireg subTestState 0).i_reg = 5 * (subTestState.v_reg 0 % 16) :=
  (font_addr_semantics subTestState 0).2 (by decide)

/-- Reading back the fold of `store_regs_into_ram`: position `i + j`
holds `v j` when `j < n`, and the original byte otherwise. -/
theorem foldl_store_get (v r : Nat → Nat) (i : Nat) :
    ∀ n j, ((List.range n).foldl (fun r idx => updF r (i + idx) (v idx)) r) (i + j) =
      if j < n then v j else r (i + j) := by
  intro n
  induction n with
  | zero => intro j; simp
  | succ n ih =>
    intro j
    rw [List.range_succ, List.foldl_append]
    simp only [List.foldl_cons, List.foldl_nil, updF]
    by_cases hj : j = n
    · subst hj; simp
    · have hne : ¬(i + j = i + n) := by omega
      rw [if_neg hne, ih]
      by_cases hlt : j < n
      · rw [if_pos hlt, if_pos (by omega)]
      · rw [if_neg hlt, if_neg (by omega)]

/-- Reading back the fold of `load_ram_into_regs`: register `j` holds
`ram (i + j)` when `j < n`, and its original value otherwise. -/
theorem foldl_load_get (ram v : Nat → Nat) (i : Nat) :
    ∀ n j, ((List.range n).foldl (fun v idx => updF v idx (ram (i + idx))) v) j =
      if j < n then ram (i + j) else v j := by
  intro n
  induction n with
  | zero => intro j; simp
  | succ n ih =>
    intro j
    rw [List.range_succ, List.foldl_append]
    simp only [List.foldl_cons, List.foldl_nil, updF]
    by_cases hj : j = n
    · subst hj; simp
    · rw [if_neg hj, ih]
      by_cases hlt : j < n
      · rw [if_pos hlt, if_pos (by omega)]
      · rw [if_neg hlt, if_neg (by omega)]

/-- C6 counterexample: the bulk load with `x = 0xF`, `i_reg = 0` and
`ram[15] = 7` overwrites register `0xF` (previously 0) with 7, so
register `0xF` is not untouched when `x = 0xF`. -/
theorem bulk_load_vf_counterexample :
    (load_ram_into_regs bulkTestState 0xF).v_reg 0xF = 7 ∧
    bulkTestState.v_reg 0xF = 0 := by
  decide

/-- C6 amended: the bulk store copies registers `0..=x` into memory at
`index_register` and never modifies any register (register `0xF`
included); the bulk load copies memory into registers `0..=x`, leaving
register `0xF` untouched exactly when `x < 0xF` — when `x = 0xF` the
loop bound `0..=x` includes register `0xF`, which receives
`ram[i_reg + 0xF]`. -/
theorem bulk_store_load_semantics (s : Emulator) (x : Nat) :
    (store_regs_into_ram s x).v_reg = s.v_reg ∧
    (∀ idx, idx ≤ x → (store_regs_into_ram s x).ram (s.i_reg + idx) = s.v_reg idx) ∧
    (∀ idx, idx ≤ x → (load_ram_into_regs s x).v_reg idx = s.ram (s.i_reg + idx)) ∧
    (x < 0xF → (load_ram_into_regs s x).v_reg 0xF = s.v_reg 0xF) ∧
    (x = 0xF → (load_ram_into_regs s x).v_reg 0xF = s.ram (s.i_reg + 0xF)) := by
  refine ⟨rfl, ?_, ?_, ?_, ?_⟩
  · intro idx hidx
    show ((List.range (x + 1)).foldl
      (fun r idx => updF r (s.i_reg + idx) (s.v_reg idx)) s.ram) (s.i_reg + idx) = _
    rw [foldl_store_get, if_pos (by omega)]
  · intro idx hidx
    show ((List.range (x + 1)).foldl
      (fun v idx => updF v idx (s.ram (s.i_reg + idx))) s.v_reg) idx = _
    rw [foldl_load_get, if_pos (by omega)]
  · intro hx
    show ((List.range (x + 1)).foldl
      (fun v idx => updF v idx (s.ram (s.i_reg + idx))) s.v_reg) 0xF = _
    rw [foldl_load_get, if_neg (by omega)]
  · intro hx
    subst hx
    show ((List.range 16).foldl
      (fun v idx => updF v idx (s.ram (s.i_reg + idx))) s.v_reg) 0xF = _
    rw [foldl_load_get, if_pos (by omega)]

/-- C6 witness: instantiation of `bulk_store_load_semantics` at
`bulkTestState` with `x = 0xF`. -/
theorem bulk_store_load_semantics_witness :
    (store_regs_into_ram bulkTestState 0xF).v_reg = bulkTestState.v_reg ∧
    (load_ram_into_regs bulkTestState 0xF).v_reg 0xF =
      bulkTestState.ram (bulkTestState.i_reg + 0xF) := by
  have h := bulk_store_load_semantics bulkTestState 0xF
  exact ⟨h.1, h.2.2.2.2 rfl⟩

set_option maxRecDepth 10000 in
/-- Auxiliary ground truth for the BCD instruction: over the whole `u8`
domain the source's `f32` pipeline produces exactly the integer decimal
digits. -/
theorem bcd_digits_exact : ∀ v, v < 256 →
    bcdHundreds v = v / 100 ∧ bcdTens v = v / 10 % 10 ∧ bcdOnes v = v % 10 := by
  decide

/-- C8: the BCD store writes `v / 100` at `index_register`,
`(v / 10) mod 10` at `index_register + 1` and `v mod 10` at
`index_register + 2`, for every 8-bit register value `v`. -/
theorem bcd_store_semantics (s : Emulator) (x v : Nat)
    (hv : s.v_reg x = v) (hv' : v < 256) :
    (assign_vx_bcd_to_ireg s x).ram s.i_reg = v / 100 ∧
    (assign_vx_bcd_to_ireg s x).ram (s.i_reg + 1) = v / 10 % 10 ∧
    (assign_vx_bcd_to_ireg s x).ram (s.i_reg + 2) = v % 10 := by
  obtain ⟨h1, h2, h3⟩ := bcd_digits_exact v hv'
  subst hv
  refine ⟨?_, ?_, ?_⟩ <;>
    simp [assign_vx_bcd_to_ireg, updF, h1, h2, h3]

/-- C8 witness: instantiation of `bcd_store_semantics` at
`bcdTestState` (`v = 255`), yielding the digits `(2, 5, 5)`. -/
theorem bcd_store_semantics_witness :
    (assign_vx_bcd_to_ireg bcdTestState 0).ram bcdTestState.i_reg = 2 ∧
    (assign_vx_bcd_to_ireg bcdTestState 0).ram (bcdTestState.i_reg + 1) = 5 ∧
    (assign_vx_bcd_to_ireg bcdTestState 0).ram (bcdTestState.i_reg + 2) = 5 := by
  have h := bcd_store_semantics bcdTestState 0 255 rfl (by decide)
  exact ⟨h.1, h.2.1, h.2.2⟩

/-- C9: add-register-to-register stores `(a + b) mod 256` in VX and sets
register `0xF` to 1 exactly when `a + b ≥ 256` (unsigned overflow), for
all 8-bit values `a`, `b`; `x ≠ 0xF` keeps the destination distinct from
the flag register the instruction overwrites afterwards. -/
theorem add_with_carry_semantics (s : Emulator) (x y a b : Nat)
    (_hx : x < 16) (_hy : y < 16) (hxf : x ≠ 0xF)
    (ha : s.v_reg x = a) (hb : s.v_reg y = b) (_ha' : a < 256) (_hb' : b < 256) :
    (add_vy_to_vx s x y).v_reg x = (a + b) % 256 ∧
    (add_vy_to_vx s x y).v_reg 0xF = if 256 ≤ a + b then 1 else 0 := by
  subst ha hb
  constructor <;> simp only [add_vy_to_vx, updF] <;> split_ifs <;> first | rfl | omega

/-- C9 witness: instantiation of `add_with_carry_semantics` at
`addTestState` (`a = 200`, `b = 100`: result 44, carry 1). -/
theorem add_with_carry_semantics_witness :
    (add_vy_to_vx addTestState 0 1).v_reg 0 = (200 + 100) % 256 ∧
    (add_vy_to_vx addTestState 0 1).v_reg 0xF = 1 := by
  have h := add_with_carry_semantics addTestState 0 1 200 100 (by decide) (by decide)
    (by decide) rfl rfl (by decide) (by decide)
  exact ⟨h.1, h.2⟩

/-- Finding in `List.range n` returns the least index satisfying the
predicate: if `k < n`, `p k` holds and every smaller index fails, the
search yields `k`. -/
theorem range_find?_some (p : Nat → Bool) :
    ∀ n k, k < n → p k = true → (∀ j, j < k → p j = false) →
      (List.range n).find? p = some k := by
  intro n
  induction n with
  | zero => intro k hk _ _; exact absurd hk (Nat.not_lt_zero k)
  | succ n ih =>
    intro k hk hp hmin
    rw [List.range_succ, List.find?_append]
    by_cases h : k < n
    · rw [ih k h hp hmin]; rfl
    · have hk' : k = n := by omega
      subst hk'
      have hnone : (List.range k).find? p = none := by
        rw [List.find?_eq_none]
        intro x hx
        rw [List.mem_range] at hx
        simp [hmin x hx]
      rw [hnone]
      simp [List.find?_cons, hp]

/-- Wait-for-key when no key is pressed: `pc` steps back by 2, nothing
else changes. -/
theorem wait_key_none (s : Emulator) (x : Nat)
    (h : ∀ i, i < NUM_KEYS → s.keys i = false) :
    wait_for_key_press s x = { s with pc := s.pc - 2 } := by
  unfold wait_for_key_press
  have hnone : (List.range NUM_KEYS).find? (fun i => s.keys i) = none := by
    rw [List.find?_eq_none]
    intro i hi
    rw [List.mem_range] at hi
    simp [h i hi]
  rw [hnone]

/-- Wait-for-key when `k` is the least pressed key: `v_reg[x] := k`,
nothing else changes. -/
theorem wait_key_some (s : Emulator) (x k : Nat) (hk : k < NUM_KEYS)
    (hp : s.keys k = true) (hmin : ∀ j, j < k → s.keys j = false) :
    wait_for_key_press s x = { s with v_reg := updF s.v_reg x k } := by
  unfold wait_for_key_press
  rw [range_find?_some (fun i => s.keys i) NUM_KEYS k hk hp hmin]

/-- C7: a tick whose fetched instruction is `0xFX0A` (wait-for-key into
register `x`), stated against the pre-fetch state `s`: if at least one
key is pressed, the destination register receives the least pressed
index `k` and `pc` ends 2 bytes past the instruction; if no key is
pressed, the resulting state is exactly `s` — `pc` equals its value
before the instruction was fetched and no register changes. -/
theorem wait_for_key_tick_semantics (rng : Nat) (s : Emulator) (x k : Nat)
    (hx : x < 16) (hpc : s.pc + 1 < RAM_SIZE)
    (hhi : s.ram s.pc = 0xF0 + x) (hlo : s.ram (s.pc + 1) = 0x0A) :
    ((∀ i, i < NUM_KEYS → s.keys i = false) → tick rng s = .ok s) ∧
    (k < NUM_KEYS → s.keys k = true → (∀ j, j < k → s.keys j = false) →
      tick rng s = .ok { s with pc := s.pc + 2, v_reg := updF s.v_reg x k }) := by
  have hop : tick rng s = execute rng ((0xF0 + x) <<< 8 ||| 0x0A) { s with pc := s.pc + 2 } := by
    unfold tick fetch
    rw [if_pos hpc, hhi, hlo]
  have hexec : execute rng ((0xF0 + x) <<< 8 ||| 0x0A) { s with pc := s.pc + 2 } =
      .ok (wait_for_key_press { s with pc := s.pc + 2 } x) := by
    interval_cases x <;> rfl
  constructor
  · intro hnone
    rw [hop, hexec, wait_key_none { s with pc := s.pc + 2 } x hnone]
    have harith : s.pc + 2 - 2 = s.pc := by omega
    exact congrArg (fun t => Except.ok { s with pc := t }) harith
  · intro hk hp hmin
    rw [hop, hexec, wait_key_some { s with pc := s.pc + 2 } x k hk hp hmin]

/-- C7 witness: instantiation of `wait_for_key_tick_semantics` at
`keyTestState` (instruction `0xF20A` at `pc = 0x200`, key 5 the only one
pressed). -/
theorem wait_for_key_tick_semantics_witness :
    tick 0 keyTestState =
      .ok { keyTestState with pc := keyTestState.pc + 2, v_reg := updF keyTestState.v_reg 2 5 } :=
  (wait_for_key_tick_semantics 0 keyTestState 2 5 (by decide) (by decide) rfl rfl).2
    (by decide) rfl (by decide)

/-- NOP tick: when the fetched word is `0x0000`, the tick succeeds and
only advances `pc` by 2. -/
theorem tick_nop_aux (rng : Nat) (s : Emulator) (hpc : s.pc + 1 < RAM_SIZE)
    (h0 : s.ram s.pc = 0) (h1 : s.ram (s.pc + 1) = 0) :
    tick rng s = .ok { s with pc := s.pc + 2 } := by
  unfold tick fetch
  rw [if_pos hpc, h0, h1]
  rfl

/-- Iterated NOP ticks over zero memory: `k` ticks succeed and advance
`pc` by `2 * k`, as long as `pc` stays within RAM. -/
theorem ticks_nop_aux (rng : Nat) : ∀ (k : Nat) (s : Emulator), (∀ a, s.ram a = 0) →
    s.pc + 2 * k ≤ RAM_SIZE → ticks rng k s = .ok { s with pc := s.pc + 2 * k } := by
  intro k
  induction k with
  | zero => intro s _ _; rfl
  | succ k ih =>
    intro s hz hb
    have h := tick_nop_aux rng s (by have := hb; unfold RAM_SIZE at *; omega) (hz _) (hz _)
    show (match tick rng s with
      | .ok s1 => ticks rng k s1
      | .error e => .error e) = _
    rw [h]
    show ticks rng k { s with pc := s.pc + 2 } = _
    have hb' : ({ s with pc := s.pc + 2 } : Emulator).pc + 2 * k ≤ RAM_SIZE := by
      show s.pc + 2 + 2 * k ≤ RAM_SIZE
      unfold RAM_SIZE at *
      omega
    rw [ih { s with pc := s.pc + 2 } hz hb']
    have harith : s.pc + 2 + 2 * k = s.pc + 2 * (k + 1) := by omega
    exact congrArg (fun t => Except.ok { s with pc := t }) harith

/-- C10: the instruction word `0x0000` is decoded as a NOP, not as the
fatal unimplemented-opcode condition: a tick fetching `0x0000` succeeds
and changes nothing but `pc` (advanced by 2); consequently, with `pc`
pointing into zero-initialized memory, any number of consecutive ticks
that keep `pc` within RAM succeed as no-ops (the run can only end at the
RAM boundary, as an out-of-bounds fetch, never as an unimplemented
opcode). -/
theorem nop_semantics (rng : Nat) (s : Emulator) :
    (s.pc + 1 < RAM_SIZE → s.ram s.pc = 0 → s.ram (s.pc + 1) = 0 →
      tick rng s = .ok { s with pc := s.pc + 2 }) ∧
    (∀ k, (∀ a, s.ram a = 0) → s.pc + 2 * k ≤ RAM_SIZE →
      ticks rng k s = .ok { s with pc := s.pc + 2 * k }) :=
  ⟨fun hpc h0 h1 => tick_nop_aux rng s hpc h0 h1,
   fun k hz hb => ticks_nop_aux rng k s hz hb⟩

/-- C10 witness: instantiation of `nop_semantics` at the default state
(zero RAM, `pc = 0x200`): one tick advances `pc` to `0x202`, and four
ticks advance it to `0x208`. -/
theorem nop_semantics_witness :
    tick 0 Emulator.base = .ok { Emulator.base with pc := Emulator.base.pc + 2 } ∧
    ticks 0 4 Emulator.base = .ok { Emulator.base with pc := Emulator.base.pc + 2 * 4 } := by
  have h := nop_semantics 0 Emulator.base
  exact ⟨h.1 (by decide) rfl rfl, h.2 4 (fun a => rfl) (by decide)⟩

end Chip8
